import Mathlib

/-!
# Verification of the aibingwa autonomous-trading core

Shallow embedding, in Lean 4, of the risk-control and trading-loop core of
the `aibingwa` npm package:

* `TradingLimits` (Risk Guard) from `src/security.ts`
* `ExecutionSafetyManager` from `src/execution-safety.ts`
* the trade journal (`logTrade` / `closeTrade`) from `src/memory.ts`
* the scanner / monitor / prediction-market arithmetic of
  `AutonomousTrader` from `src/autonomous.ts`

JavaScript numbers are modelled as exact rationals (`ℚ`); `NaN`-producing
parses are modelled with `Option ℚ` (`none` = `NaN`) at the points where the
source can produce `NaN`.  Wall-clock values (`Date.now()`, `toDateString()`)
are passed in explicitly as natural numbers.  Where JavaScript division by
zero yields `Infinity`, the rational model yields `0`; no theorem below
evaluates such a division at a zero denominator.
-/

-- Batteries marks rational arithmetic `@[irreducible]`; restore
-- unfoldability so that concrete scenarios evaluate by `decide`.
attribute [local semireducible] Rat.mul Rat.add Rat.sub Rat.inv Rat.ofScientific

-- `List.mergeSort` is sealed behind well-founded recursion; unseal it so
-- that sorting evaluates by `decide` on concrete scenarios.
unseal List.merge List.mergeSort

namespace Aibingwa

/-! ## Risk Guard (`TradingLimits`, src/security.ts) -/

/-- `SecurityConfig` from src/security.ts.  Dollar amounts and percentages
are rationals, counts are naturals. -/
structure SecurityConfig where
  maxTradesPerDay : Nat
  maxDailyLossUsd : ℚ
  maxOpenPositions : Nat
  cooldownMinutesAfterLossStreak : Nat
  maxPositionSizePct : ℚ
  drawdownKillSwitchPct : ℚ
deriving Repr, DecidableEq

/-- `DEFAULT_SECURITY_CONFIG` from src/security.ts. -/
def DEFAULT_SECURITY_CONFIG : SecurityConfig :=
  { maxTradesPerDay := 100
    maxDailyLossUsd := 1000
    maxOpenPositions := 10
    cooldownMinutesAfterLossStreak := 5
    maxPositionSizePct := 10
    drawdownKillSwitchPct := 50 }

/-- The mutable private fields of class `TradingLimits`.  `lastResetDate`
(a date string in the source) is modelled as an abstract day number. -/
structure LimitsState where
  dailyTrades : Nat
  dailyLoss : ℚ
  lastResetDate : Nat
  consecutiveLosses : Nat
  lastLossTime : Nat
  totalDrawdown : ℚ
  autoTradeKilled : Bool
deriving Repr, DecidableEq

/-- A fresh `TradingLimits` instance (the field initializers), constructed
on day `today`. -/
def LimitsState.fresh (today : Nat) : LimitsState :=
  { dailyTrades := 0
    dailyLoss := 0
    lastResetDate := today
    consecutiveLosses := 0
    lastLossTime := 0
    totalDrawdown := 0
    autoTradeKilled := false }

/-- `resetIfNewDay` from src/security.ts: zero the daily counters when the
calendar day changed. -/
def resetIfNewDay (st : LimitsState) (today : Nat) : LimitsState :=
  if today ≠ st.lastResetDate then
    { st with dailyTrades := 0, dailyLoss := 0, lastResetDate := today }
  else st

/-- The deny reasons produced by `canTrade`, carrying the data interpolated
into the source's message strings. -/
inductive DenyReason where
  | drawdownKilled : DenyReason
  | dailyLimit (maxTradesPerDay : Nat) : DenyReason
  | positionSize (positionSizePct limitPct : ℚ) : DenyReason
  | cooldown (remainingMinutes : Nat) : DenyReason
deriving Repr, DecidableEq

/-- The exact message string of the kill-switch denial in `canTrade`. -/
def drawdownKilledText : String :=
  "Auto-trade disabled due to excessive drawdown. Manual reset required."

/-- Result record of `canTrade`. -/
structure CanTradeResult where
  allowed : Bool
  reason : Option DenyReason
deriving Repr, DecidableEq

/-- `canTrade` from src/security.ts.  Returns the post-`resetIfNewDay`
state together with the verdict.  The checks run in source order:
kill switch, daily trade limit, position-size percentage, loss-streak
cooldown. -/
def canTrade (cfg : SecurityConfig) (st : LimitsState)
    (positionSizeUsd currentPortfolioValue : ℚ) (today now : Nat) :
    LimitsState × CanTradeResult :=
  let st := resetIfNewDay st today
  if st.autoTradeKilled then
    (st, ⟨false, some .drawdownKilled⟩)
  else if st.dailyTrades ≥ cfg.maxTradesPerDay then
    (st, ⟨false, some (.dailyLimit cfg.maxTradesPerDay)⟩)
  else
    let positionSizePct := positionSizeUsd / currentPortfolioValue * 100
    if positionSizePct > cfg.maxPositionSizePct then
      (st, ⟨false, some (.positionSize positionSizePct cfg.maxPositionSizePct)⟩)
    else if st.consecutiveLosses ≥ 3 ∧
        now - st.lastLossTime < cfg.cooldownMinutesAfterLossStreak * 60 * 1000 then
      let remainingMinutes :=
        (cfg.cooldownMinutesAfterLossStreak * 60 * 1000 - (now - st.lastLossTime) + 59999)
          / 60000
      (st, ⟨false, some (.cooldown remainingMinutes)⟩)
    else
      (st, ⟨true, none⟩)

/-- `recordTrade` from src/security.ts: on a loss (`pnlUsd < 0`) bump the
daily-loss, streak and drawdown counters and latch the kill switch when the
drawdown percentage reaches `drawdownKillSwitchPct`; on a win reset the loss
streak and relieve half the pnl from `totalDrawdown`, clamped at zero. -/
def recordTrade (cfg : SecurityConfig) (st : LimitsState)
    (pnlUsd portfolioValue : ℚ) (today now : Nat) : LimitsState :=
  let st := resetIfNewDay st today
  let st := { st with dailyTrades := st.dailyTrades + 1 }
  if pnlUsd < 0 then
    let st := { st with
      dailyLoss := st.dailyLoss + |pnlUsd|
      consecutiveLosses := st.consecutiveLosses + 1
      lastLossTime := now
      totalDrawdown := st.totalDrawdown + |pnlUsd| }
    let drawdownPct := st.totalDrawdown / portfolioValue * 100
    if drawdownPct ≥ cfg.drawdownKillSwitchPct then
      { st with autoTradeKilled := true }
    else st
  else
    { st with consecutiveLosses := 0
              totalDrawdown := max 0 (st.totalDrawdown - pnlUsd * (1/2)) }

/-- `resetKillSwitch` from src/security.ts: the manual override. -/
def resetKillSwitch (st : LimitsState) : LimitsState :=
  { st with autoTradeKilled := false, totalDrawdown := 0, consecutiveLosses := 0 }

/-! ## Execution Safety Wrapper (`ExecutionSafetyManager`, src/execution-safety.ts) -/

/-- `startsWithSeq s pat`: `pat` is an initial segment of `s`. -/
def startsWithSeq : List Char → List Char → Bool
  | _, [] => true
  | [], _ :: _ => false
  | c :: s, p :: ps => c == p && startsWithSeq s ps

/-- `containsSeq s pat`: `pat` occurs contiguously inside `s`
(the semantics of JavaScript `String.prototype.includes`). -/
def containsSeq : List Char → List Char → Bool
  | [], pat => pat.isEmpty
  | c :: s, pat => startsWithSeq (c :: s) pat || containsSeq s pat

/-- JavaScript `message.includes(pat)`. -/
def strIncludes (s pat : String) : Bool := containsSeq s.toList pat.toList

/-- The error taxonomy of `classifyError`. -/
inductive ErrorType where
  | network | insufficientBalance | marketClosed | rateLimit | invalidParams | system
deriving Repr, DecidableEq

/-- `ClassifiedError` from src/execution-safety.ts. -/
structure ClassifiedError where
  type : ErrorType
  message : String
  retryable : Bool
  backoffMs : Nat
deriving Repr, DecidableEq

/-- `ExecutionResult` from src/execution-safety.ts (`data` modelled as an
optional string payload, `latency` in ms). -/
structure ExecutionResult where
  success : Bool
  data : Option String
  error : Option ClassifiedError
  latency : Nat
  cached : Bool
deriving Repr, DecidableEq

/-- JavaScript `message.substring(0, 200)`. -/
def truncate200 (s : String) : String := String.mk (s.toList.take 200)

/-- `classifyError` from src/execution-safety.ts: substring/heuristic
matching on the thrown error's message (plus the numeric `status` field for
the 429/400 checks), in source order. -/
def classifyError (message : String) (status : Option Nat) : ClassifiedError :=
  if strIncludes message "ECONNRESET" || strIncludes message "ETIMEDOUT" ||
      strIncludes message "fetch failed" then
    ⟨.network, "Network connection error", true, 2000⟩
  else if strIncludes message "rate limit" || strIncludes message "429" ||
      status == some 429 then
    ⟨.rateLimit, "API rate limit exceeded", true, 60000⟩
  else if strIncludes message "insufficient" || strIncludes message "balance" ||
      strIncludes message "funds" then
    ⟨.insufficientBalance, "Insufficient balance for trade", false, 0⟩
  else if strIncludes message "market closed" || strIncludes message "trading halted" ||
      strIncludes message "market not found" then
    ⟨.marketClosed, "Market is closed or unavailable", false, 0⟩
  else if strIncludes message "invalid" || strIncludes message "validation" ||
      status == some 400 then
    ⟨.invalidParams, "Invalid request parameters", false, 0⟩
  else
    ⟨.system, truncate200 message, true, 5000⟩

/-- One attempt of the wrapped asynchronous operation: it either resolves
with a payload or throws an error with a message (and optional HTTP
status). -/
inductive ExecOutcome where
  | ok (data : String)
  | throwErr (message : String) (status : Option Nat)
deriving Repr, DecidableEq

/-- Observable outcome of `executeWithRetry`'s retry loop: the final
result, how many times the operation was invoked, the total backoff
slept, and the `retryCount` of the final attempt. -/
structure AttemptsResult where
  result : ExecutionResult
  invocations : Nat
  sleptMs : Nat
  finalRetryCount : Nat
deriving Repr, DecidableEq

/-- The retry loop of `executeWithRetry` (src/execution-safety.ts lines
108–194): attempt the operation; on a thrown error classify it and, when
retryable and `retryCount < 3`, sleep the type's backoff and recurse with
`retryCount + 1`.  The operation's successive outcomes are supplied as the
list `attempts`; the `[]` case (the supplied outcomes are exhausted) cannot
arise when `attempts` covers every attempt actually made, and is mapped to
a generic system failure. -/
def runAttempts : List ExecOutcome → Nat → AttemptsResult
  | [], k => ⟨⟨false, none, some ⟨.system, "no outcome", true, 5000⟩, 0, false⟩, 0, 0, k⟩
  | .ok d :: _, k => ⟨⟨true, some d, none, 0, false⟩, 1, 0, k⟩
  | .throwErr msg status :: rest, k =>
      let e := classifyError msg status
      if e.retryable = true ∧ k < 3 then
        let r := runAttempts rest (k + 1)
        ⟨r.result, r.invocations + 1, r.sleptMs + e.backoffMs, r.finalRetryCount⟩
      else
        ⟨⟨false, none, some e, 0, false⟩, 1, 0, k⟩

/-- The request's action type (`ExecutionRequest.type`). -/
inductive ActionType where
  | trade | scan | research | polymarketBet
deriving Repr, DecidableEq

/-- The fixed `RATE_LIMITS` table: (requests, windowMs) per action type. -/
def RATE_LIMITS : ActionType → Nat × Nat
  | .trade => (10, 60000)
  | .scan => (60, 60000)
  | .research => (30, 60000)
  | .polymarketBet => (5, 60000)

/-- The caller-supplied part of an `ExecutionRequest`. -/
structure ExecutionRequest where
  id : String
  type : ActionType
  userId : String
deriving Repr, DecidableEq

/-- The mutable private fields of `ExecutionSafetyManager`:
the idempotency cache, the per-(type,user) rate-limit timestamp lists, and
the in-flight request-id set. -/
structure ExecState where
  executionHistory : List (String × ExecutionResult)
  rateRequests : List ((ActionType × String) × List Nat)
  pendingExecutions : List String
deriving Repr, DecidableEq

/-- A manager with no history, no recorded requests, nothing in flight. -/
def ExecState.fresh : ExecState := ⟨[], [], []⟩

/-- Association-list lookup for the rate-limit state of a key. -/
def rateOf (st : ExecState) (key : ActionType × String) : List Nat :=
  match st.rateRequests.find? (fun kv => kv.1 == key) with
  | some kv => kv.2
  | none => []

/-- `checkRateLimit`: drop timestamps outside the sliding window; deny with
a retry-after when the surviving count reaches the limit. -/
def checkRateLimit (st : ExecState) (t : ActionType) (userId : String) (now : Nat) :
    Bool × Nat :=
  let limit := RATE_LIMITS t
  let live := (rateOf st (t, userId)).filter (fun ts => now - ts < limit.2)
  if live.length ≥ limit.1 then
    let oldest := live.foldr min now
    (false, limit.2 - (now - oldest))
  else
    (true, 0)

/-- `updateRateLimit`: push the current timestamp for the key. -/
def updateRateLimit (st : ExecState) (t : ActionType) (userId : String) (now : Nat) :
    ExecState :=
  let key := (t, userId)
  let prev := rateOf st key
  { st with rateRequests :=
      (key, prev ++ [now]) :: st.rateRequests.filter (fun kv => kv.1 != key) }

/-- The "Duplicate execution prevented" failure result returned by
`safeExecute` when the request id is already in flight. -/
def dupResult : ExecutionResult :=
  ⟨false, none, some ⟨.system, "Duplicate execution prevented", false, 0⟩, 0, false⟩

/-- Observable outcome of a `safeExecute` call. -/
structure SafeResult where
  result : ExecutionResult
  state : ExecState
  invocations : Nat
  sleptMs : Nat
  finalRetryCount : Nat
deriving Repr, DecidableEq

/-- `safeExecute` from src/execution-safety.ts: duplicate suppression, then
the sliding-window rate limiter, then the idempotency cache, then
`executeWithRetry` (which records the rate-limit timestamp, runs the retry
loop, caches the result, and — in its `finally` — removes the id from the
in-flight set, so the net pending set is unchanged). -/
def safeExecuteM (st : ExecState) (req : ExecutionRequest)
    (attempts : List ExecOutcome) (now : Nat) : SafeResult :=
  if st.pendingExecutions.contains req.id then
    ⟨dupResult, st, 0, 0, 0⟩
  else
    let rl := checkRateLimit st req.type req.userId now
    if rl.1 = false then
      ⟨⟨false, none,
        some ⟨.rateLimit,
          "Rate limit exceeded. Try again in " ++ toString ((rl.2 + 999) / 1000) ++ "s",
          true, rl.2⟩, 0, false⟩, st, 0, 0, 0⟩
    else
      match st.executionHistory.find? (fun kv => kv.1 == req.id) with
      | some kv => ⟨{ kv.2 with cached := true }, st, 0, 0, 0⟩
      | none =>
          let st := updateRateLimit st req.type req.userId now
          let r := runAttempts attempts 0
          ⟨r.result,
           { st with executionHistory := (req.id, r.result) :: st.executionHistory },
           r.invocations, r.sleptMs, r.finalRetryCount⟩

/-! ## JavaScript number parsing (`parseInt` / `parseFloat`) -/

/-- ASCII decimal digit test. -/
def isDigitCh (c : Char) : Bool := '0' ≤ c && c ≤ '9'

/-- JavaScript whitespace (the varieties occurring in this code base). -/
def isWsChar (c : Char) : Bool := c == ' ' || c == '\t' || c == '\n' || c == '\r'

/-- Value of a decimal digit string. -/
def natOfDigits (ds : List Char) : Nat :=
  ds.foldl (fun acc c => acc * 10 + (c.toNat - 48)) 0

/-- Parse an unsigned decimal literal with optional fractional part
(exponents never occur in this code base's inputs and are not modelled);
`none` is JavaScript `NaN`. -/
def parseUnsigned (s : List Char) : Option ℚ :=
  let intPart := s.takeWhile isDigitCh
  let rest := s.dropWhile isDigitCh
  match rest with
  | '.' :: rest2 =>
      let fracPart := rest2.takeWhile isDigitCh
      if intPart.isEmpty && fracPart.isEmpty then none
      else some ((natOfDigits intPart : ℚ) +
        (natOfDigits fracPart : ℚ) / (10 ^ fracPart.length))
  | _ => if intPart.isEmpty then none else some (natOfDigits intPart : ℚ)

/-- JavaScript `parseFloat`: skip leading whitespace, optional sign, then
the longest numeric prefix; `none` is `NaN`. -/
def jsParseFloat (s : String) : Option ℚ :=
  match s.toList.dropWhile isWsChar with
  | '-' :: rest => (parseUnsigned rest).map Neg.neg
  | '+' :: rest => parseUnsigned rest
  | t => parseUnsigned t

/-- JavaScript `parseInt` (radix 10): skip leading whitespace, optional
sign, then the longest digit prefix; `none` is `NaN`. -/
def jsParseInt (s : String) : Option Int :=
  let core : List Char → Option Nat := fun t =>
    let ds := t.takeWhile isDigitCh
    if ds.isEmpty then none else some (natOfDigits ds)
  match s.toList.dropWhile isWsChar with
  | '-' :: rest => (core rest).map (fun n => -(n : Int))
  | '+' :: rest => (core rest).map (fun n => (n : Int))
  | t => (core t).map (fun n => (n : Int))

/-! ## Trade journal (`src/memory.ts`) -/

/-- `TradeEntry.status`. -/
inductive TradeStatus where
  | open | closed | failed
deriving Repr, DecidableEq

/-- `TradeEntry` from src/memory.ts. -/
structure TradeEntry where
  id : String
  token : String
  symbol : String
  action : String
  amount : String
  price : Option String
  marketCap : Option String
  timestamp : Nat
  reason : String
  bankrResponse : Option String
  pnl : Option String
  status : TradeStatus
  exitPrice : Option String
  exitTimestamp : Option Nat
deriving Repr, DecidableEq

/-- `TokenMemory` from src/memory.ts. -/
structure TokenMemory where
  symbol : String
  address : Option String
  lastResearched : Nat
  researchSummary : String
  score : Int
  marketCap : Option String
  volume24h : Option String
  sentiment : Option String
  timesTraded : Nat
  totalPnl : ℚ
  lastPrice : Option String
  tags : List String
deriving Repr, DecidableEq

/-- The fresh per-symbol record inserted by `logTrade` / `updateTokenMemory`. -/
def defaultTokenMemory (symbol : String) : TokenMemory :=
  { symbol := symbol, address := none, lastResearched := 0, researchSummary := ""
    score := 50, marketCap := none, volume24h := none, sentiment := none
    timesTraded := 0, totalPnl := 0, lastPrice := none, tags := [] }

/-- `PolymarketTrade` from src/memory.ts (`result` kept as a free string). -/
structure PolymarketTrade where
  id : String
  market : String
  outcome : String
  amount : String
  odds : String
  timestamp : Nat
  result : Option String
  pnl : Option String
  bankrResponse : Option String
deriving Repr, DecidableEq

/-- `AgentMemory.polymarketStats`. -/
structure PolymarketStats where
  totalBets : Nat
  wins : Nat
  losses : Nat
  totalPnl : ℚ
  bestStrategy : String
  worstStrategy : String
deriving Repr, DecidableEq

/-- `AgentMemory.settings`. -/
structure Settings where
  maxMarketCap : ℚ
  maxBuyAmount : String
  takeProfitPct : ℚ
  stopLossPct : ℚ
  scanIntervalMin : ℚ
  autoTradeEnabled : Bool
  maxOpenPositions : Nat
deriving Repr, DecidableEq

/-- `AgentMemory` from src/memory.ts (the token map modelled as an
association list in insertion order). -/
structure AgentMemory where
  tokens : List (String × TokenMemory)
  trades : List TradeEntry
  polymarketTrades : List PolymarketTrade
  learnings : List String
  polymarketLearnings : List String
  lastScanTime : Nat
  totalTrades : Nat
  winRate : ℚ
  totalPnl : ℚ
  polymarketStats : PolymarketStats
  settings : Settings
deriving Repr, DecidableEq

/-- Lookup in the token map. -/
def tokenOf (tokens : List (String × TokenMemory)) (symbol : String) :
    Option TokenMemory :=
  match tokens.find? (fun kv => kv.1 == symbol) with
  | some kv => some kv.2
  | none => none

/-- Property write in the token map: replace in place, or append. -/
def setToken (tokens : List (String × TokenMemory)) (symbol : String)
    (tm : TokenMemory) : List (String × TokenMemory) :=
  if (tokens.find? (fun kv => kv.1 == symbol)).isSome then
    tokens.map (fun kv => if kv.1 == symbol then (symbol, tm) else kv)
  else
    tokens ++ [(symbol, tm)]

/-- `logTrade` from src/memory.ts: append the entry, bump `totalTrades`,
upsert the symbol's `TokenMemory` and bump its `timesTraded`. -/
def logTrade (mem : AgentMemory) (trade : TradeEntry) : AgentMemory :=
  let tm := (tokenOf mem.tokens trade.symbol).getD (defaultTokenMemory trade.symbol)
  { mem with
    trades := mem.trades ++ [trade]
    totalTrades := mem.totalTrades + 1
    tokens := setToken mem.tokens trade.symbol
      { tm with timesTraded := tm.timesTraded + 1 } }

/-- `parseFloat(t.pnl || "0") > 0` — the win test of `closeTrade`. -/
def isWinTrade (t : TradeEntry) : Bool :=
  match jsParseFloat (t.pnl.getD "0") with
  | some v => decide (0 < v)
  | none => false

/-- The win-rate recomputation performed inside `closeTrade`:
`(# closed trades with pnl > 0) / (# closed trades) * 100`, `0` when no
trade is closed. -/
def recomputeWinRate (trades : List TradeEntry) : ℚ :=
  let closedTrades := trades.filter (fun t => t.status == .closed)
  let wins := closedTrades.filter isWinTrade
  if 0 < closedTrades.length then
    (wins.length : ℚ) / (closedTrades.length : ℚ) * 100
  else 0

/-- Mutate the first list entry satisfying `p` (JavaScript
`Array.prototype.find` returns the first match, which is then mutated). -/
def updateFirstTrade (f : TradeEntry → TradeEntry) (p : TradeEntry → Bool) :
    List TradeEntry → List TradeEntry
  | [] => []
  | t :: ts => if p t then f t :: ts else t :: updateFirstTrade f p ts

/-- The field updates `closeTrade` applies to the found trade. -/
def closeFields (exitPrice pnl : String) (now : Nat) (t : TradeEntry) : TradeEntry :=
  { t with status := .closed, exitPrice := some exitPrice,
           exitTimestamp := some now, pnl := some pnl }

/-- `closeTrade` from src/memory.ts: find the trade by id (no-op when
absent); set status/exitPrice/exitTimestamp/pnl; accumulate the parsed pnl
into the aggregate and per-token totals (`NaN` modelled as `0` in the
accumulators — no claim evaluates a `NaN` pnl); recompute `winRate` from
scratch over all closed trades; append a learning line, keeping the last
100. -/
def closeTrade (mem : AgentMemory) (tradeId exitPrice pnl : String)
    (now : Nat) : AgentMemory :=
  match mem.trades.find? (fun t => t.id == tradeId) with
  | none => mem
  | some t0 =>
      let trades := updateFirstTrade (closeFields exitPrice pnl now)
        (fun t => t.id == tradeId) mem.trades
      let pnlNum := (jsParseFloat pnl).getD 0
      let tokens :=
        match tokenOf mem.tokens t0.symbol with
        | some tm => setToken mem.tokens t0.symbol
            { tm with totalPnl := tm.totalPnl + pnlNum }
        | none => mem.tokens
      let line :=
        if 0 < pnlNum then
          "✅ " ++ t0.symbol ++ ": +" ++ pnl ++ "% — " ++ t0.reason
        else
          "❌ " ++ t0.symbol ++ ": " ++ pnl ++ "% — " ++ t0.reason
      let learnings := mem.learnings ++ [line]
      let learnings :=
        if 100 < learnings.length then learnings.drop (learnings.length - 100)
        else learnings
      { mem with
        trades := trades
        totalPnl := mem.totalPnl + pnlNum
        tokens := tokens
        winRate := recomputeWinRate trades
        learnings := learnings }

/-- `getOpenPositions` from src/memory.ts. -/
def getOpenPositions (mem : AgentMemory) : List TradeEntry :=
  mem.trades.filter (fun t => t.status == .open)

/-- The C9 invariant: a trade is closed exactly when its `pnl`, `exitPrice`
and `exitTimestamp` are all set. -/
def tradeConsistent (t : TradeEntry) : Prop :=
  t.status = .closed ↔ (t.pnl.isSome ∧ t.exitPrice.isSome ∧ t.exitTimestamp.isSome)

instance (t : TradeEntry) : Decidable (tradeConsistent t) := by
  unfold tradeConsistent; infer_instance

/-! ## String utilities (JavaScript `split` / `trim` / `toLowerCase`) -/

/-- `String.prototype.split` with a single-character separator. -/
def splitOnCharAux (sep : Char) : List Char → List Char → List (List Char)
  | [], acc => [acc.reverse]
  | c :: rest, acc =>
      if c == sep then acc.reverse :: splitOnCharAux sep rest []
      else splitOnCharAux sep rest (c :: acc)

/-- Split a character list at every occurrence of `sep`. -/
def splitOnChar (sep : Char) (s : List Char) : List (List Char) :=
  splitOnCharAux sep s []

/-- `String.prototype.trim` (for the whitespace varieties in play). -/
def trimChars (s : List Char) : List Char :=
  ((s.dropWhile isWsChar).reverse.dropWhile isWsChar).reverse

/-- `String.prototype.toLowerCase` (ASCII). -/
def toLowerStr (s : List Char) : List Char := s.map Char.toLower

/-! ## Candidate Scanner (`AutonomousTrader.researchCandidates` /
`scanMarket`, src/autonomous.ts) -/

/-- `TokenCandidate` from src/autonomous.ts.  `marketCap` is `none` when
the JavaScript value would be `NaN`. -/
structure TokenCandidate where
  name : String
  symbol : String
  price : String
  marketCap : Option ℚ
  volume24h : String
  change24h : String
  score : Int
  reason : String
deriving Repr, DecidableEq

/-- `parts[3].replace(/[$,k]/gi, "")`. -/
def stripMcapChars (s : List Char) : List Char :=
  s.filter (fun c => !(c == '$' || c == ',' || c == 'k' || c == 'K'))

/-- The per-line parse step of `researchCandidates`: split on `"|"`, trim
each field, keep the line only when it has ≥ 7 fields and the first parses
as an integer; market caps written with a `k` are multiplied by 1000. -/
def parseCandidateLine (line : List Char) : Option TokenCandidate :=
  let parts := (splitOnChar '|' line).map trimChars
  match parts with
  | s0 :: s1 :: s2 :: s3 :: s4 :: s5 :: s6 :: _ =>
      match jsParseInt (String.mk s0) with
      | some score =>
          let mcap := jsParseFloat (String.mk (stripMcapChars s3))
          let marketCap :=
            if containsSeq (toLowerStr s3) ['k'] then mcap.map (· * 1000) else mcap
          some ⟨String.mk s1, String.mk s1, String.mk s2, marketCap,
                String.mk s4, String.mk s5, score, String.mk s6⟩
      | none => none
  | _ => none

/-- The sort comparator `(a, b) => b.score - a.score`: a sorts before b
exactly when `b.score ≤ a.score`. -/
def scoreDescLe (a b : TokenCandidate) : Bool := decide (b.score ≤ a.score)

/-- `researchCandidates` (the parsing/ranking part): split the scoring
response into lines, parse each defensively, sort descending by score. -/
def researchCandidates (response : String) : List TokenCandidate :=
  ((splitOnChar '\n' response.toList).filterMap parseCandidateLine).mergeSort
    scoreDescLe

/-- The auto-buy selection of `scanMarket`: when auto-trade is on and at
least one candidate scored ≥ 60, take the top `maxOpenPositions − open`
viable candidates and issue one "Buy $amount of symbol on Base" request
each. -/
def scanMarketBuyPrompts (settings : Settings) (openCount : Nat)
    (cands : List TokenCandidate) : List String :=
  let viable := cands.filter (fun c => decide (60 ≤ c.score))
  if settings.autoTradeEnabled && decide (0 < viable.length) then
    let slotsAvailable : Int := (settings.maxOpenPositions : Int) - (openCount : Int)
    if 0 < slotsAvailable then
      (viable.take slotsAvailable.toNat).map
        (fun c => "Buy $" ++ settings.maxBuyAmount ++ " of " ++ c.symbol ++ " on Base")
    else []
  else []

/-- Best-effort decimal rendering of a rational (`Number.prototype.toString`);
no claim below inspects the strings produced here. -/
def jsNumToString (q : ℚ) : String :=
  if q.den = 1 then toString q.num
  else toString q.num ++ "/" ++ toString q.den

/-- The `TradeEntry` constructed by `executeBuy` (src/autonomous.ts lines
269–302): fresh trades carry no `pnl` / `exitPrice` / `exitTimestamp` and
are `open` on success, `failed` otherwise. -/
def mkBuyTrade (tradeId : String) (tk : TokenCandidate) (settings : Settings)
    (now : Nat) (success : Bool) (response : Option String) : TradeEntry :=
  { id := tradeId
    token := tk.name
    symbol := tk.symbol
    action := "buy"
    amount := "$" ++ settings.maxBuyAmount
    price := some tk.price
    marketCap := some (match tk.marketCap with
      | some q => jsNumToString q
      | none => "NaN")
    timestamp := now
    reason := "Score " ++ toString tk.score ++ "/100: " ++ tk.reason
    bankrResponse := response
    pnl := none
    status := if success then .open else .failed
    exitPrice := none
    exitTimestamp := none }

/-! ## Position Monitor (`AutonomousTrader.monitorPositions`,
src/autonomous.ts lines 305–377) -/

/-- The capture group of the first match of `/\$?([\d.]+)/`: the first
maximal run of digits and dots. -/
def priceMatchGroup (s : List Char) : Option (List Char) :=
  match s.dropWhile (fun c => !(isDigitCh c || c == '.')) with
  | [] => none
  | rest => some (rest.takeWhile (fun c => isDigitCh c || c == '.'))

/-- `pnlPct.toFixed(2)` (round to the nearer hundredth, ties towards the
larger value, as specified for `Number.prototype.toFixed`). -/
def qToFixed2 (q : ℚ) : String :=
  let n : Int := ⌊q * 100 + 1/2⌋
  let m := n.natAbs
  let frac := m % 100
  (if n < 0 then "-" else "") ++ toString (m / 100) ++ "." ++
    (if frac < 10 then "0" ++ toString frac else toString frac)

/-- Observable outcome of one loop iteration of `monitorPositions` for one
open position: the threaded memory, the external sell requests issued, and
the number of `closeTrade` calls made. -/
structure MonitorOutcome where
  memory : AgentMemory
  sellPrompts : List String
  closes : Nat
deriving Repr

/-- One iteration of the `monitorPositions` loop body for a given open
trade.  `priceSuccess`/`priceResponse` model the price-prompt reply and
`tpSellOk`/`slSellOk` the success of the two possible sell requests.  The
take-profit branch (`pnlPct ≥ takeProfitPct`) requests a 50 % sell and, on
success, closes the trade; the stop-loss branch (`pnlPct ≤ −stopLossPct`)
is then checked on the threaded state and requests a full sell.  A missing
or malformed price reply, or a zero entry/current price, skips the
position. -/
def monitorStep (mem : AgentMemory) (trade : TradeEntry)
    (priceSuccess : Bool) (priceResponse : Option String)
    (tpSellOk slSellOk : Bool) (now : Nat) : MonitorOutcome :=
  if priceSuccess = false then ⟨mem, [], 0⟩
  else
    let currentPrice := (priceResponse.getD "").toList
    let entryPrice := jsParseFloat (trade.price.getD "0")
    let current : Option ℚ :=
      match priceMatchGroup currentPrice with
      | some g => jsParseFloat (String.mk g)
      | none => some 0
    if entryPrice == some 0 || current == some 0 then ⟨mem, [], 0⟩
    else
      match entryPrice, current with
      | some e, some c =>
          let pnlPct := (c - e) / e * 100
          let tpCond := decide (mem.settings.takeProfitPct ≤ pnlPct)
          let prompts1 :=
            if tpCond then ["Sell 50% of my " ++ trade.symbol ++ " position on Base"]
            else []
          let mem1 :=
            if tpCond && tpSellOk then
              closeTrade mem trade.id (jsNumToString c) (qToFixed2 pnlPct) now
            else mem
          let closes1 := if tpCond && tpSellOk then 1 else 0
          let slCond := decide (pnlPct ≤ -mem1.settings.stopLossPct)
          let prompts2 :=
            if slCond then ["Sell all of my " ++ trade.symbol ++ " on Base"]
            else []
          let mem2 :=
            if slCond && slSellOk then
              closeTrade mem1 trade.id (jsNumToString c) (qToFixed2 pnlPct) now
            else mem1
          let closes2 := if slCond && slSellOk then 1 else 0
          ⟨mem2, prompts1 ++ prompts2, closes1 + closes2⟩
      | _, _ => ⟨mem, [], 0⟩

/-! ## Prediction-Market bet sizing (`AutonomousTrader.scanPolymarket`,
src/autonomous.ts lines 421–446) -/

/-- Match a literal pattern, returning the remaining input. -/
def matchLit : List Char → List Char → Option (List Char)
  | s, [] => some s
  | [], _ :: _ => none
  | c :: s, p :: ps => if c == p then matchLit s ps else none

/-- Match `\s+` (greedy). -/
def matchWs1 : List Char → Option (List Char)
  | c :: rest => if isWsChar c then some (rest.dropWhile isWsChar) else none
  | [] => none

/-- Match `\d+` (greedy). -/
def matchDigits1 : List Char → Option (List Char)
  | c :: rest => if isDigitCh c then some (rest.dropWhile isDigitCh) else none
  | [] => none

/-- One alternative of the survival-mode regex
`/life\s+depends|last\s+\$|can'?t\s+lose|protect\s+capital|survive|last\s+\d+/i`
matched at the current position (input already lower-cased). -/
def survivalAt (s : List Char) : Bool :=
  ((matchLit s "life".toList).bind matchWs1
    |>.bind (fun r => matchLit r "depends".toList)).isSome ||
  ((matchLit s "last".toList).bind matchWs1
    |>.bind (fun r => matchLit r "$".toList)).isSome ||
  ((matchLit s "can".toList).map (fun r => (matchLit r "'".toList).getD r)
    |>.bind (fun r => matchLit r "t".toList)
    |>.bind matchWs1
    |>.bind (fun r => matchLit r "lose".toList)).isSome ||
  ((matchLit s "protect".toList).bind matchWs1
    |>.bind (fun r => matchLit r "capital".toList)).isSome ||
  (matchLit s "survive".toList).isSome ||
  ((matchLit s "last".toList).bind matchWs1 |>.bind matchDigits1).isSome

/-- The regex test anywhere in the input. -/
def survivalAnywhere : List Char → Bool
  | [] => false
  | c :: rest => survivalAt (c :: rest) || survivalAnywhere rest

/-- `isSurvivalMode`: the case-insensitive survival-language test on the
strategy text. -/
def isSurvivalMode (strategy : String) : Bool :=
  survivalAnywhere (toLowerStr strategy.toList)

/-- `winRate = totalBets > 0 ? wins / totalBets : 0.5`. -/
def winRateOf (stats : PolymarketStats) : ℚ :=
  if 0 < stats.totalBets then (stats.wins : ℚ) / (stats.totalBets : ℚ) else 1/2

/-- The `riskFactor` selection of `scanPolymarket`, in source order:
survival mode 0.5, else 1.5 on `winRate > 0.6` with ≥ 5 bets, else 0.6 on
`winRate < 0.4` with ≥ 5 bets, else 1.0. -/
def riskFactorOf (stats : PolymarketStats) (survival : Bool) : ℚ :=
  if survival then 1/2
  else if winRateOf stats > 3/5 ∧ 5 ≤ stats.totalBets then 3/2
  else if winRateOf stats < 2/5 ∧ 5 ≤ stats.totalBets then 3/5
  else 1

/-- `edge = Math.max(0.1, winRate - 0.5)`. -/
def edgeOf (stats : PolymarketStats) : ℚ := max (1/10) (winRateOf stats - 1/2)

/-- The bet-size computation of `scanPolymarket`:
`perTradeAmount = Math.floor(balance * edge * riskFactor)` then
`Math.max(1, Math.min(perTradeAmount, balance * 0.05))`. -/
def perTradeAmountOf (stats : PolymarketStats) (strategy : String)
    (balance : ℚ) : ℚ :=
  let edge := edgeOf stats
  let riskFactor := riskFactorOf stats (isSurvivalMode strategy)
  let floored : ℚ := (⌊balance * edge * riskFactor⌋ : ℤ)
  max 1 (min floored (balance * (1/20)))

/-! ## Request ids (`ExecutionSafetyManager.generateRequestId`,
src/execution-safety.ts lines 337–351) -/

/-- Coercion to a 32-bit signed integer (the effect of JavaScript bitwise
operations such as `hash & hash` and `<<`). -/
def toInt32 (n : Int) : Int := (n + 2 ^ 31) % 2 ^ 32 - 2 ^ 31

/-- The loop of `simpleHash`:
`hash = ((hash << 5) - hash + charCode) & -1` per character. -/
def simpleHashLoop (h : Int) : List Char → Int
  | [] => h
  | c :: cs => simpleHashLoop (toInt32 (toInt32 (h * 32) - h + c.toNat)) cs

/-- A base-36 digit (`0`–`9`, `a`–`z`). -/
def digit36 (d : Nat) : Char :=
  if d < 10 then Char.ofNat (48 + d) else Char.ofNat (87 + d)

/-- Base-36 digit expansion (fuel-structured; `fuel = n + 1` always
suffices since `n / 36 < n` for `n > 0`). -/
def toBase36Aux : Nat → Nat → List Char → List Char
  | 0, _, acc => acc
  | fuel + 1, n, acc =>
      if n = 0 then acc else toBase36Aux fuel (n / 36) (digit36 (n % 36) :: acc)

/-- `Math.abs(hash).toString(36)`. -/
def toBase36 (n : Nat) : String :=
  if n = 0 then "0" else String.mk (toBase36Aux (n + 1) n [])

/-- `simpleHash` from src/execution-safety.ts. -/
def simpleHash (s : String) : String :=
  toBase36 (simpleHashLoop 0 s.toList).natAbs

/-- UTF-16-code-unit `≤` on strings as character lists (the order JavaScript
`Array.prototype.sort()` applies to keys). -/
def leCharsB : List Char → List Char → Bool
  | [], _ => true
  | _ :: _, [] => false
  | a :: as, b :: bs => if a = b then leCharsB as bs else decide (a < b)

/-- Comparator used on `Object.keys(params).sort()` entries. -/
def keyLe (a b : String × String) : Bool := leCharsB a.1.toList b.1.toList

/-- `JSON.stringify(params, Object.keys(params).sort())`: serialize the
(string-valued) parameter record with keys in sorted order.  A parameter
record is modelled as an association list with distinct keys. -/
def jsonStringifySorted (params : List (String × String)) : String :=
  let sorted := params.mergeSort keyLe
  let items := sorted.map (fun kv => "\"" ++ kv.1 ++ "\":\"" ++ kv.2 ++ "\"")
  "\x7b" ++ String.intercalate "," items ++ "\x7d"

/-- `generateRequestId` from src/execution-safety.ts:
`` `${type}_${Date.now()}_${hash}` `` where `hash` is `simpleHash` of the
normalized parameter serialization. -/
def generateRequestId (t : String) (params : List (String × String))
    (now : Nat) : String :=
  t ++ "_" ++ toString now ++ "_" ++ simpleHash (jsonStringifySorted params)

/-! ## Concrete fixtures used by witnesses and counterexamples -/

/-- A settings block with the source's default numbers and auto-trade on. -/
def settingsEx : Settings := ⟨40000, "5", 100, 30, 30, true, 5⟩

/-- The PEPE2 candidate of the scan scenario. -/
def pepe2Candidate : TokenCandidate :=
  ⟨"PEPE2", "PEPE2", "$0.001", some 35000, "$1200", "+15%", 72, "strong momentum"⟩

/-- An `AgentMemory` with no history (the `DEFAULT_MEMORY` shape). -/
def exampleMemory : AgentMemory :=
  ⟨[], [], [], [], [], 0, 0, 0, 0, ⟨0, 0, 0, 0, "", ""⟩, settingsEx⟩

/-- A buy `TradeEntry` as `executeBuy` logs it. -/
def buyTradeEx : TradeEntry :=
  mkBuyTrade "t1" pepe2Candidate settingsEx 100 true (some "ok")

/-- Memory holding that single open trade. -/
def memWithOpenTrade : AgentMemory := logTrade exampleMemory buyTradeEx

/-- The result of closing that trade at exit price `"2"` with pnl `"50"`. -/
def closedMemEx : AgentMemory := closeTrade memWithOpenTrade "t1" "2" "50" 200

/-- An open trade with entry price `"1.00"` for the monitor scenario. -/
def monitorTradeEx : TradeEntry :=
  mkBuyTrade "t2" ⟨"TOK", "TOK", "1.00", some 30000, "$800", "+5%", 70, "ok"⟩
    settingsEx 100 true none

-- ===== END OF DEFINITIONS =====

/-- `resetIfNewDay` never touches the kill-switch flag. -/
theorem resetIfNewDay_killed (st : LimitsState) (today : Nat) :
    (resetIfNewDay st today).autoTradeKilled = st.autoTradeKilled := by
  unfold resetIfNewDay; split <;> rfl

/-- `resetIfNewDay` never touches the drawdown accumulator. -/
theorem resetIfNewDay_drawdown (st : LimitsState) (today : Nat) :
    (resetIfNewDay st today).totalDrawdown = st.totalDrawdown := by
  unfold resetIfNewDay; split <;> rfl

/-- C1: a $60 loss against a $100 portfolio under the default config
(`drawdownKillSwitchPct = 50`) latches `autoTradeKilled`; while latched,
every `canTrade` call is denied with the manual-reset reason and leaves the
flag latched; `recordTrade` (in particular a winning trade) never clears the
flag; `resetKillSwitch` clears it. -/
theorem killSwitch_latches_until_manual_reset :
    (∀ today now : Nat,
      (recordTrade DEFAULT_SECURITY_CONFIG (LimitsState.fresh today)
        (-60) 100 today now).autoTradeKilled = true) ∧
    (∀ (cfg : SecurityConfig) (st : LimitsState) (p v : ℚ) (today now : Nat),
      st.autoTradeKilled = true →
        (canTrade cfg st p v today now).2.allowed = false ∧
        (canTrade cfg st p v today now).2.reason = some .drawdownKilled ∧
        (canTrade cfg st p v today now).1.autoTradeKilled = true) ∧
    (∀ (cfg : SecurityConfig) (st : LimitsState) (pnl v : ℚ) (today now : Nat),
      st.autoTradeKilled = true →
        (recordTrade cfg st pnl v today now).autoTradeKilled = true) ∧
    (∀ st : LimitsState, (resetKillSwitch st).autoTradeKilled = false) := by
  refine ⟨?_, ?_, ?_, ?_⟩
  · intro today now
    simp only [recordTrade, resetIfNewDay, LimitsState.fresh]
    norm_num [DEFAULT_SECURITY_CONFIG]
  · intro cfg st p v today now h
    simp [canTrade, resetIfNewDay_killed, h]
  · intro cfg st pnl v today now h
    simp only [recordTrade]
    split
    · split <;> simp [resetIfNewDay_killed, h]
    · simp [resetIfNewDay_killed, h]
  · intro st; rfl

/-- Witness for `killSwitch_latches_until_manual_reset` at concrete inputs:
the latched state reached by the $60 loss is indeed denied by `canTrade`,
stays latched through a winning `recordTrade`, and is cleared by
`resetKillSwitch`. -/
theorem killSwitch_latches_until_manual_reset_witness :
    (recordTrade DEFAULT_SECURITY_CONFIG (LimitsState.fresh 0)
        (-60) 100 0 5).autoTradeKilled = true ∧
    (canTrade DEFAULT_SECURITY_CONFIG
        (recordTrade DEFAULT_SECURITY_CONFIG (LimitsState.fresh 0) (-60) 100 0 5)
        5 100 0 6).2.allowed = false ∧
    (recordTrade DEFAULT_SECURITY_CONFIG
        (recordTrade DEFAULT_SECURITY_CONFIG (LimitsState.fresh 0) (-60) 100 0 5)
        30 100 0 7).autoTradeKilled = true ∧
    (resetKillSwitch
        (recordTrade DEFAULT_SECURITY_CONFIG (LimitsState.fresh 0) (-60) 100 0 5)
        ).autoTradeKilled = false := by
  have hkill := killSwitch_latches_until_manual_reset.1 0 5
  refine ⟨hkill, ?_, ?_, ?_⟩
  · exact (killSwitch_latches_until_manual_reset.2.1
      DEFAULT_SECURITY_CONFIG _ 5 100 0 6 hkill).1
  · exact killSwitch_latches_until_manual_reset.2.2.1
      DEFAULT_SECURITY_CONFIG _ 30 100 0 7 hkill
  · exact killSwitch_latches_until_manual_reset.2.2.2 _

/-- C7 counterexample: from a reachable state with `totalDrawdown = 10`
(after a $10 loss on a $1000 portfolio), recording a winning trade with
`pnl = 20` drives `totalDrawdown` to exactly `0` — the drawdown history is
fully erased, contradicting "never fully erasing". -/
theorem bigWin_erases_drawdown :
    0 < (recordTrade DEFAULT_SECURITY_CONFIG (LimitsState.fresh 0)
          (-10) 1000 0 3).totalDrawdown ∧
    (recordTrade DEFAULT_SECURITY_CONFIG
        (recordTrade DEFAULT_SECURITY_CONFIG (LimitsState.fresh 0) (-10) 1000 0 3)
        20 1000 0 4).totalDrawdown = 0 := by
  constructor
  · simp only [recordTrade, resetIfNewDay, LimitsState.fresh]
    norm_num [DEFAULT_SECURITY_CONFIG]
  · simp only [recordTrade, resetIfNewDay, LimitsState.fresh]
    norm_num [DEFAULT_SECURITY_CONFIG]

/-- C7 amended: on a win (`0 ≤ pnl`) `recordTrade` resets
`consecutiveLosses` to `0` and sets
`totalDrawdown := max 0 (totalDrawdown − pnl/2)`; the drawdown stays
strictly positive exactly when the half-pnl relief falls short of the
accumulated drawdown (`pnl < 2·totalDrawdown`), while a win with
`pnl ≥ 2·totalDrawdown` erases it to exactly `0`. -/
theorem win_heals_drawdown (cfg : SecurityConfig) (st : LimitsState)
    (pnl v : ℚ) (today now : Nat) (hwin : 0 ≤ pnl) :
    (recordTrade cfg st pnl v today now).consecutiveLosses = 0 ∧
    (recordTrade cfg st pnl v today now).totalDrawdown =
      max 0 (st.totalDrawdown - pnl * (1/2)) ∧
    (pnl < 2 * st.totalDrawdown →
      0 < (recordTrade cfg st pnl v today now).totalDrawdown) ∧
    (2 * st.totalDrawdown ≤ pnl →
      (recordTrade cfg st pnl v today now).totalDrawdown = 0) := by
  have hnot : ¬ pnl < 0 := not_lt.mpr hwin
  refine ⟨?_, ?_, ?_, ?_⟩
  · simp [recordTrade, hnot, resetIfNewDay_drawdown]
  · simp [recordTrade, hnot, resetIfNewDay_drawdown]
  · intro h
    simp only [recordTrade, hnot, if_false, resetIfNewDay_drawdown, lt_max_iff]
    right; linarith
  · intro h
    simp only [recordTrade, hnot, if_false, resetIfNewDay_drawdown]
    rw [max_eq_left (by linarith)]

/-- Witness for `win_heals_drawdown`: with drawdown 10, a win of 4 leaves
drawdown `8 > 0`, and a win of 20 erases it. -/
theorem win_heals_drawdown_witness :
    ((recordTrade DEFAULT_SECURITY_CONFIG
        { dailyTrades := 1, dailyLoss := 10, lastResetDate := 0,
          consecutiveLosses := 1, lastLossTime := 3, totalDrawdown := 10,
          autoTradeKilled := false } 4 1000 0 4).consecutiveLosses = 0 ∧
      0 < (recordTrade DEFAULT_SECURITY_CONFIG
        { dailyTrades := 1, dailyLoss := 10, lastResetDate := 0,
          consecutiveLosses := 1, lastLossTime := 3, totalDrawdown := 10,
          autoTradeKilled := false } 4 1000 0 4).totalDrawdown) ∧
    (recordTrade DEFAULT_SECURITY_CONFIG
        { dailyTrades := 1, dailyLoss := 10, lastResetDate := 0,
          consecutiveLosses := 1, lastLossTime := 3, totalDrawdown := 10,
          autoTradeKilled := false } 20 1000 0 4).totalDrawdown = 0 := by
  refine ⟨⟨?_, ?_⟩, ?_⟩
  · exact (win_heals_drawdown DEFAULT_SECURITY_CONFIG _ 4 1000 0 4
      (by norm_num)).1
  · exact (win_heals_drawdown DEFAULT_SECURITY_CONFIG _ 4 1000 0 4
      (by norm_num)).2.2.1 (by norm_num)
  · exact (win_heals_drawdown DEFAULT_SECURITY_CONFIG _ 20 1000 0 4
      (by norm_num)).2.2.2 (by norm_num)

/-- C2: when the request id is already in flight, `safeExecute` returns the
"Duplicate execution prevented" failure and does not invoke the supplied
operation at all. -/
theorem duplicate_execution_prevented (st : ExecState) (req : ExecutionRequest)
    (attempts : List ExecOutcome) (now : Nat)
    (h : st.pendingExecutions.contains req.id = true) :
    (safeExecuteM st req attempts now).result.success = false ∧
    (safeExecuteM st req attempts now).result.error =
      some ⟨.system, "Duplicate execution prevented", false, 0⟩ ∧
    (safeExecuteM st req attempts now).invocations = 0 := by
  unfold safeExecuteM
  rw [h]
  simp [dupResult]

/-- Witness for `duplicate_execution_prevented`: id `"req1"` is in flight,
the second call is rejected without invoking the operation. -/
theorem duplicate_execution_prevented_witness :
    (safeExecuteM ⟨[], [], ["req1"]⟩ ⟨"req1", .trade, "user1"⟩
        [.ok "filled"] 1000).result.success = false ∧
    (safeExecuteM ⟨[], [], ["req1"]⟩ ⟨"req1", .trade, "user1"⟩
        [.ok "filled"] 1000).result.error =
      some ⟨.system, "Duplicate execution prevented", false, 0⟩ ∧
    (safeExecuteM ⟨[], [], ["req1"]⟩ ⟨"req1", .trade, "user1"⟩
        [.ok "filled"] 1000).invocations = 0 :=
  duplicate_execution_prevented ⟨[], [], ["req1"]⟩ ⟨"req1", .trade, "user1"⟩
    [.ok "filled"] 1000 (by decide)

/-- Bounded retries: starting from `retryCount = k` the operation is
invoked at most `1 + (3 − k)` times. -/
theorem runAttempts_invocations_le (attempts : List ExecOutcome) (k : Nat) :
    (runAttempts attempts k).invocations ≤ 1 + (3 - k) := by
  induction attempts generalizing k with
  | nil => simp [runAttempts]
  | cons a rest ih =>
      cases a with
      | ok d => simp [runAttempts]
      | throwErr msg status =>
          simp only [runAttempts]
          split
          · rename_i hcond
            have := ih (k + 1)
            simp only []
            omega
          · simp [runAttempts]

/-- C3: (i) the classifier marks exactly network / rate-limit / system
errors retryable, with backoffs 2000 ms / 60000 ms / 5000 ms, and marks
insufficient-balance / market-closed / invalid-params non-retryable with no
backoff; (ii) a first attempt whose error classifies non-retryable is
surfaced immediately — the operation is invoked exactly once; (iii) at most
3 retries ever happen (≤ 4 invocations); (iv) an operation that throws
"ECONNRESET" twice and then succeeds reports success with the final
attempt's `retryCount = 2` after `2 × 2000` ms of backoff. -/
theorem retry_policy :
    (∀ (msg : String) (status : Option Nat),
      ((classifyError msg status).type = .network →
        (classifyError msg status).retryable = true ∧
        (classifyError msg status).backoffMs = 2000) ∧
      ((classifyError msg status).type = .rateLimit →
        (classifyError msg status).retryable = true ∧
        (classifyError msg status).backoffMs = 60000) ∧
      ((classifyError msg status).type = .system →
        (classifyError msg status).retryable = true ∧
        (classifyError msg status).backoffMs = 5000) ∧
      ((classifyError msg status).type = .insufficientBalance ∨
       (classifyError msg status).type = .marketClosed ∨
       (classifyError msg status).type = .invalidParams →
        (classifyError msg status).retryable = false ∧
        (classifyError msg status).backoffMs = 0)) ∧
    (∀ (msg : String) (status : Option Nat) (rest : List ExecOutcome) (k : Nat),
      (classifyError msg status).retryable = false →
        runAttempts (.throwErr msg status :: rest) k =
          ⟨⟨false, none, some (classifyError msg status), 0, false⟩, 1, 0, k⟩) ∧
    (∀ attempts : List ExecOutcome, (runAttempts attempts 0).invocations ≤ 4) ∧
    ((safeExecuteM ExecState.fresh ⟨"req1", .trade, "user1"⟩
        [.throwErr "read ECONNRESET" none, .throwErr "read ECONNRESET" none,
         .ok "filled"] 0).result.success = true ∧
     (safeExecuteM ExecState.fresh ⟨"req1", .trade, "user1"⟩
        [.throwErr "read ECONNRESET" none, .throwErr "read ECONNRESET" none,
         .ok "filled"] 0).finalRetryCount = 2 ∧
     (safeExecuteM ExecState.fresh ⟨"req1", .trade, "user1"⟩
        [.throwErr "read ECONNRESET" none, .throwErr "read ECONNRESET" none,
         .ok "filled"] 0).invocations = 3 ∧
     (safeExecuteM ExecState.fresh ⟨"req1", .trade, "user1"⟩
        [.throwErr "read ECONNRESET" none, .throwErr "read ECONNRESET" none,
         .ok "filled"] 0).sleptMs = 2 * 2000) := by
  refine ⟨?_, ?_, ?_, ?_⟩
  · intro msg status
    unfold classifyError
    split
    · simp
    · split
      · simp
      · split
        · simp
        · split
          · simp
          · split <;> simp
  · intro msg status rest k h
    simp [runAttempts, h]
  · intro attempts
    have := runAttempts_invocations_le attempts 0
    omega
  · refine ⟨?_, ?_, ?_, ?_⟩ <;> decide

/-- Witness for `retry_policy`: its universally quantified parts applied at
concrete inputs — "insufficient funds" classifies non-retryable and is not
retried; the invocation bound holds for a stream of five network errors. -/
theorem retry_policy_witness :
    ((classifyError "insufficient funds" none).type = .insufficientBalance ∨
     (classifyError "insufficient funds" none).type = .marketClosed ∨
     (classifyError "insufficient funds" none).type = .invalidParams →
      (classifyError "insufficient funds" none).retryable = false ∧
      (classifyError "insufficient funds" none).backoffMs = 0) ∧
    (runAttempts [.throwErr "insufficient funds" none, .ok "x"] 0 =
      ⟨⟨false, none, some (classifyError "insufficient funds" none), 0, false⟩,
       1, 0, 0⟩) ∧
    (runAttempts [.throwErr "e1 ECONNRESET" none, .throwErr "e2 ECONNRESET" none,
        .throwErr "e3 ECONNRESET" none, .throwErr "e4 ECONNRESET" none,
        .throwErr "e5 ECONNRESET" none] 0).invocations ≤ 4 :=
  ⟨(retry_policy.1 "insufficient funds" none).2.2.2,
   retry_policy.2.1 "insufficient funds" none [.ok "x"] 0 (by decide),
   retry_policy.2.2.1 _⟩

/-- Factored per-line parser body, for reasoning about the kept-line
condition (identical to the `parts` match inside `parseCandidateLine`). -/
theorem parseCandidateLine_eq (line : List Char) :
    parseCandidateLine line =
      (match (splitOnChar '|' line).map trimChars with
      | s0 :: s1 :: s2 :: s3 :: s4 :: s5 :: s6 :: _ =>
          match jsParseInt (String.mk s0) with
          | some score =>
              let mcap := jsParseFloat (String.mk (stripMcapChars s3))
              let marketCap :=
                if containsSeq (toLowerStr s3) ['k'] then mcap.map (· * 1000) else mcap
              some ⟨String.mk s1, String.mk s1, String.mk s2, marketCap,
                    String.mk s4, String.mk s5, score, String.mk s6⟩
          | none => none
      | _ => none) := rfl

/-- `scoreDescLe` is transitive. -/
theorem scoreDescLe_trans (a b c : TokenCandidate) :
    scoreDescLe a b = true → scoreDescLe b c = true → scoreDescLe a c = true := by
  simp only [scoreDescLe, decide_eq_true_eq]
  exact fun h1 h2 => le_trans h2 h1

/-- `scoreDescLe` is total. -/
theorem scoreDescLe_total (a b : TokenCandidate) :
    (scoreDescLe a b || scoreDescLe b a) = true := by
  simp only [scoreDescLe, Bool.or_eq_true, decide_eq_true_eq]
  exact le_total b.score a.score

/-- C5: (i) a response line is kept exactly when it splits on `"|"` into at
least 7 trimmed fields whose first parses as an integer; (ii) the parsed
candidate list is sorted descending by score; (iii) on the two-line
scenario response the parser yields PEPE2 (score 72, market cap `$35k`
scaled to 35000) before DEAD (score 40), and with auto-trade on and one
open slot `scanMarket` issues exactly the single buy request for PEPE2. -/
theorem scanner_parses_scores_and_buys :
    (∀ line : List Char,
      (parseCandidateLine line).isSome = true ↔
        (7 ≤ ((splitOnChar '|' line).map trimChars).length ∧
         (jsParseInt (String.mk
            (((splitOnChar '|' line).map trimChars).getD 0 []))).isSome = true)) ∧
    (∀ response : String,
      List.Pairwise (fun a b => b.score ≤ a.score) (researchCandidates response)) ∧
    (researchCandidates
        "72|PEPE2|$0.001|$35k|$1200|+15%|strong momentum\n40|DEAD|$0.0001|$5k|$50|-80%|dying" =
      [⟨"PEPE2", "PEPE2", "$0.001", some 35000, "$1200", "+15%", 72, "strong momentum"⟩,
       ⟨"DEAD", "DEAD", "$0.0001", some 5000, "$50", "-80%", 40, "dying"⟩] ∧
     scanMarketBuyPrompts ⟨40000, "5", 100, 30, 30, true, 2⟩ 1
        (researchCandidates
          "72|PEPE2|$0.001|$35k|$1200|+15%|strong momentum\n40|DEAD|$0.0001|$5k|$50|-80%|dying") =
      ["Buy $5 of PEPE2 on Base"]) := by
  refine ⟨?_, ?_, by decide, by decide⟩
  · intro line
    rw [parseCandidateLine_eq]
    rcases h : (splitOnChar '|' line).map trimChars with
      _ | ⟨s0, _ | ⟨s1, _ | ⟨s2, _ | ⟨s3, _ | ⟨s4, _ | ⟨s5, _ | ⟨s6, rest⟩⟩⟩⟩⟩⟩⟩ <;>
      simp <;> cases hp : jsParseInt (String.mk s0) <;> simp [hp]
  · intro response
    have hs := @List.sorted_mergeSort TokenCandidate scoreDescLe
      scoreDescLe_trans scoreDescLe_total
      ((splitOnChar '\n' response.toList).filterMap parseCandidateLine)
    exact (hs.imp (fun hab => by
      simpa [scoreDescLe, decide_eq_true_eq] using hab))

/-- Witness for `scanner_parses_scores_and_buys`: the kept-line criterion
applied to the scenario's first line. -/
theorem scanner_parses_scores_and_buys_witness :
    (parseCandidateLine
      "72|PEPE2|$0.001|$35k|$1200|+15%|strong momentum".toList).isSome = true ∧
    List.Pairwise (fun a b => b.score ≤ a.score)
      (researchCandidates "72|PEPE2|$0.001|$35k|$1200|+15%|strong momentum") :=
  ⟨(scanner_parses_scores_and_buys.1
      "72|PEPE2|$0.001|$35k|$1200|+15%|strong momentum".toList).mpr
      ⟨by decide, by decide⟩,
   scanner_parses_scores_and_buys.2.1
      "72|PEPE2|$0.001|$35k|$1200|+15%|strong momentum"⟩

/-- C4: the prediction-market bet size is
`clamp(floor(balance · edge · riskFactor), 1, balance·0.05)` with
`edge = max(0.1, winRate − 0.5)`, `winRate = wins/totalBets` (0.5 with no
history) and the four-way `riskFactor` selection; on the scenario
`winRate = 0.7`, `totalBets = 10`, `balance = $200`, no survival language,
the bet is exactly $10. -/
theorem polymarket_bet_sizing :
    (∀ (stats : PolymarketStats) (strategy : String) (balance : ℚ),
      perTradeAmountOf stats strategy balance =
        max 1 (min
          ((⌊balance * max (1/10) (winRateOf stats - 1/2) *
              riskFactorOf stats (isSurvivalMode strategy)⌋ : ℤ) : ℚ)
          (balance * (1/20)))) ∧
    (∀ stats : PolymarketStats, 0 < stats.totalBets →
      winRateOf stats = (stats.wins : ℚ) / (stats.totalBets : ℚ)) ∧
    (∀ stats : PolymarketStats, stats.totalBets = 0 → winRateOf stats = 1/2) ∧
    (∀ (stats : PolymarketStats) (survival : Bool),
      (survival = true → riskFactorOf stats survival = 1/2) ∧
      (survival = false → 3/5 < winRateOf stats → 5 ≤ stats.totalBets →
        riskFactorOf stats survival = 3/2) ∧
      (survival = false → winRateOf stats < 2/5 → 5 ≤ stats.totalBets →
        riskFactorOf stats survival = 3/5) ∧
      (survival = false → ¬(3/5 < winRateOf stats ∧ 5 ≤ stats.totalBets) →
        ¬(winRateOf stats < 2/5 ∧ 5 ≤ stats.totalBets) →
        riskFactorOf stats survival = 1)) ∧
    (isSurvivalMode "bet on crypto momentum markets" = false ∧
     winRateOf ⟨10, 7, 3, 0, "", ""⟩ = 7/10 ∧
     edgeOf ⟨10, 7, 3, 0, "", ""⟩ = 1/5 ∧
     riskFactorOf ⟨10, 7, 3, 0, "", ""⟩ false = 3/2 ∧
     perTradeAmountOf ⟨10, 7, 3, 0, "", ""⟩ "bet on crypto momentum markets" 200
       = 10) := by
  refine ⟨fun stats strategy balance => rfl, ?_, ?_, ?_, by decide⟩
  · intro stats h; simp [winRateOf, h]
  · intro stats h; simp [winRateOf, h]
  · intro stats survival
    refine ⟨?_, ?_, ?_, ?_⟩
    · intro h; simp [riskFactorOf, h]
    · intro h h1 h2
      simp only [riskFactorOf, h, Bool.false_eq_true, if_false]
      rw [if_pos ⟨h1, h2⟩]
    · intro h h1 h2
      simp only [riskFactorOf, h, Bool.false_eq_true, if_false]
      rw [if_neg (fun hc => absurd hc.1 (by linarith)), if_pos ⟨h1, h2⟩]
    · intro h h1 h2
      simp only [riskFactorOf, h, Bool.false_eq_true, if_false]
      rw [if_neg h1, if_neg h2]

/-- Witness for `polymarket_bet_sizing`: each quantified part applied at
the scenario's stats. -/
theorem polymarket_bet_sizing_witness :
    perTradeAmountOf ⟨10, 7, 3, 0, "", ""⟩ "bet on crypto momentum markets" 200 =
      max 1 (min
        ((⌊(200 : ℚ) * max (1/10) (winRateOf ⟨10, 7, 3, 0, "", ""⟩ - 1/2) *
            riskFactorOf ⟨10, 7, 3, 0, "", ""⟩
              (isSurvivalMode "bet on crypto momentum markets")⌋ : ℤ) : ℚ)
        ((200 : ℚ) * (1/20))) ∧
    winRateOf ⟨10, 7, 3, 0, "", ""⟩ = (7 : ℚ) / 10 ∧
    winRateOf ⟨0, 0, 0, 0, "", ""⟩ = 1/2 ∧
    riskFactorOf ⟨10, 7, 3, 0, "", ""⟩ false = 3/2 :=
  ⟨polymarket_bet_sizing.1 ⟨10, 7, 3, 0, "", ""⟩ "bet on crypto momentum markets" 200,
   polymarket_bet_sizing.2.1 ⟨10, 7, 3, 0, "", ""⟩ (by decide),
   polymarket_bet_sizing.2.2.1 ⟨0, 0, 0, 0, "", ""⟩ rfl,
   (polymarket_bet_sizing.2.2.2.1 ⟨10, 7, 3, 0, "", ""⟩ false).2.1 rfl
     (by norm_num [winRateOf]) (by norm_num)⟩

/-- `closeTrade` never touches the settings block. -/
theorem closeTrade_settings (mem : AgentMemory) (a b c : String) (n : Nat) :
    (closeTrade mem a b c n).settings = mem.settings := by
  unfold closeTrade
  split <;> rfl

/-- C6: with positive `takeProfitPct` and `stopLossPct`, the take-profit
condition (`pnlPct ≥ takeProfitPct`) and the stop-loss condition
(`pnlPct ≤ −stopLossPct`) can never hold for the same `pnlPct`, and one
monitor iteration for one position issues at most one sell request and
calls `closeTrade` at most once. -/
theorem tp_sl_fire_at_most_once (mem : AgentMemory) (trade : TradeEntry)
    (ps : Bool) (presp : Option String) (tpOk slOk : Bool) (now : Nat)
    (hTP : 0 < mem.settings.takeProfitPct) (hSL : 0 < mem.settings.stopLossPct) :
    (∀ p : ℚ, ¬(mem.settings.takeProfitPct ≤ p ∧ p ≤ -mem.settings.stopLossPct)) ∧
    (monitorStep mem trade ps presp tpOk slOk now).sellPrompts.length ≤ 1 ∧
    (monitorStep mem trade ps presp tpOk slOk now).closes ≤ 1 := by
  refine ⟨fun p hp => by linarith [hp.1, hp.2], ?_⟩
  simp only [monitorStep, apply_ite (fun m : AgentMemory => m.settings),
    closeTrade_settings, ite_self]
  split
  · exact ⟨by simp, by simp⟩
  · split
    · exact ⟨by simp, by simp⟩
    · split
      · rename_i e c he hc
        by_cases htp : mem.settings.takeProfitPct ≤ (c - e) / e * 100
        · have hslf : ¬((c - e) / e * 100 ≤ -mem.settings.stopLossPct) := by
            intro hsl; linarith
          simp only [htp, hslf, decide_eq_true_eq, decide_eq_false_iff_not,
            not_false_eq_true, Bool.true_and, if_false]
          cases tpOk <;> simp
        · simp only [htp, decide_eq_true_eq, decide_eq_false_iff_not,
            not_false_eq_true, if_neg, Bool.false_and, if_false]
          by_cases hsl : (c - e) / e * 100 ≤ -mem.settings.stopLossPct <;>
            cases slOk <;> simp [htp, hsl]
      · exact ⟨by simp, by simp⟩

/-- Witness for `tp_sl_fire_at_most_once`: an open trade bought at 1.00
re-priced at "$2.10" under the default 100 % take-profit / 30 % stop-loss
settings. -/
theorem tp_sl_fire_at_most_once_witness :
    (0 : ℚ) < exampleMemory.settings.takeProfitPct ∧
    (monitorStep exampleMemory monitorTradeEx true (some "$2.10") true true
      300).sellPrompts.length ≤ 1 ∧
    (monitorStep exampleMemory monitorTradeEx true (some "$2.10") true true
      300).closes ≤ 1 :=
  ⟨by decide,
   (tp_sl_fire_at_most_once exampleMemory monitorTradeEx true (some "$2.10")
      true true 300 (by decide) (by decide)).2.1,
   (tp_sl_fire_at_most_once exampleMemory monitorTradeEx true (some "$2.10")
      true true 300 (by decide) (by decide)).2.2⟩

/-- Closing the found trade leaves at least one closed trade in the list. -/
theorem updateFirst_closed_pos (l : List TradeEntry)
    (p : TradeEntry → Bool) (ep pnl : String) (now : Nat)
    (h : (l.find? p).isSome = true) :
    0 < ((updateFirstTrade (closeFields ep pnl now) p l).filter
          (fun t => t.status == TradeStatus.closed)).length := by
  induction l with
  | nil => simp [List.find?] at h
  | cons t ts ih =>
      by_cases hp : p t = true
      · simp [updateFirstTrade, hp, List.filter_cons, closeFields]
      · rw [List.find?_cons_of_neg _ (by simp [hp])] at h
        have := ih h
        simp only [updateFirstTrade]
        rw [if_neg (by simp [hp]), List.filter_cons]
        split
        · simp only [List.length_cons]
          omega
        · exact this

/-- C8 counterexample: after closing the single winning trade, the stored
`winRate` is `100` while the fraction
`(# closed trades with pnl>0) / (# closed trades)` is `1/1 = 1` — the
store keeps the percentage, not the bare ratio. -/
theorem winRate_stored_as_percentage :
    closedMemEx.winRate = 100 ∧
    ((closedMemEx.trades.filter (fun t => t.status == TradeStatus.closed)).filter
        isWinTrade).length = 1 ∧
    (closedMemEx.trades.filter (fun t => t.status == TradeStatus.closed)).length = 1 ∧
    closedMemEx.winRate ≠
      (((closedMemEx.trades.filter (fun t => t.status == TradeStatus.closed)).filter
          isWinTrade).length : ℚ) /
        ((closedMemEx.trades.filter (fun t => t.status == TradeStatus.closed)).length : ℚ) := by
  refine ⟨by decide, by decide, by decide, by decide⟩

/-- C8 amended: whenever `closeTrade` finds the trade id, the stored
`winRate` equals the from-scratch recomputation over the updated journal,
which — the closed set now being non-empty — is exactly
`(# closed with pnl>0) / (# closed) × 100`; recomputing again on the
unchanged journal returns the stored value (idempotence). -/
theorem closeTrade_recomputes_winRate (mem : AgentMemory)
    (tradeId ep pnl : String) (now : Nat)
    (h : (mem.trades.find? (fun t => t.id == tradeId)).isSome = true) :
    (closeTrade mem tradeId ep pnl now).winRate =
      recomputeWinRate (closeTrade mem tradeId ep pnl now).trades ∧
    0 < ((closeTrade mem tradeId ep pnl now).trades.filter
          (fun t => t.status == TradeStatus.closed)).length ∧
    (closeTrade mem tradeId ep pnl now).winRate =
      ((((closeTrade mem tradeId ep pnl now).trades.filter
            (fun t => t.status == TradeStatus.closed)).filter isWinTrade).length : ℚ) /
        (((closeTrade mem tradeId ep pnl now).trades.filter
            (fun t => t.status == TradeStatus.closed)).length : ℚ) * 100 := by
  obtain ⟨t0, ht0⟩ := Option.isSome_iff_exists.mp h
  have hpos := updateFirst_closed_pos mem.trades (fun t => t.id == tradeId)
    ep pnl now (by rw [ht0]; rfl)
  unfold closeTrade
  rw [ht0]
  refine ⟨rfl, by simpa using hpos, ?_⟩
  show recomputeWinRate _ = _
  rw [recomputeWinRate]
  simp only []
  rw [if_pos (by simpa using hpos)]

/-- Witness for `closeTrade_recomputes_winRate` at the concrete one-trade
journal. -/
theorem closeTrade_recomputes_winRate_witness :
    closedMemEx.winRate = recomputeWinRate closedMemEx.trades ∧
    0 < (closedMemEx.trades.filter
          (fun t => t.status == TradeStatus.closed)).length :=
  ⟨(closeTrade_recomputes_winRate memWithOpenTrade "t1" "2" "50" 200 (by decide)).1,
   (closeTrade_recomputes_winRate memWithOpenTrade "t1" "2" "50" 200 (by decide)).2.1⟩

/-- The trade produced by `closeFields` satisfies the status/exit-field
invariant. -/
theorem closeFields_consistent (ep pnl : String) (now : Nat) (t : TradeEntry) :
    tradeConsistent (closeFields ep pnl now t) := by
  simp [tradeConsistent, closeFields]

/-- `updateFirstTrade` with `closeFields` preserves the invariant for every
entry. -/
theorem updateFirst_consistent (l : List TradeEntry)
    (p : TradeEntry → Bool) (ep pnl : String) (now : Nat)
    (hl : ∀ t ∈ l, tradeConsistent t) :
    ∀ t ∈ updateFirstTrade (closeFields ep pnl now) p l, tradeConsistent t := by
  induction l with
  | nil => simp [updateFirstTrade]
  | cons t ts ih =>
      intro u hu
      unfold updateFirstTrade at hu
      by_cases hp : p t = true
      · rw [if_pos hp] at hu
        rcases List.mem_cons.mp hu with h | h
        · exact h ▸ closeFields_consistent ep pnl now t
        · exact hl u (List.mem_cons_of_mem _ h)
      · rw [if_neg hp] at hu
        rcases List.mem_cons.mp hu with h | h
        · exact h ▸ hl t (List.mem_cons_self t ts)
        · exact ih (fun v hv => hl v (List.mem_cons_of_mem _ hv)) u h

/-- When the id is found, the updated journal contains an entry with that
id that is closed with all three exit fields set. -/
theorem updateFirst_close_found (l : List TradeEntry)
    (tid ep pnl : String) (now : Nat)
    (h : (l.find? (fun t => t.id == tid)).isSome = true) :
    ∃ t ∈ updateFirstTrade (closeFields ep pnl now) (fun t => t.id == tid) l,
      t.id = tid ∧ t.status = TradeStatus.closed ∧
      t.pnl.isSome = true ∧ t.exitPrice.isSome = true ∧
      t.exitTimestamp.isSome = true := by
  induction l with
  | nil => simp [List.find?] at h
  | cons t ts ih =>
      by_cases hp : (t.id == tid) = true
      · refine ⟨closeFields ep pnl now t, ?_, ?_⟩
        · simp [updateFirstTrade, hp]
        · simpa [closeFields] using eq_of_beq hp
      · rw [List.find?_cons_of_neg _ (by simp_all)] at h
        obtain ⟨u, hu, hprops⟩ := ih h
        exact ⟨u, by simp [updateFirstTrade, hp, List.mem_cons_of_mem, hu], hprops⟩

/-- C9: (i) every trade created by `executeBuy` has none of
`pnl`/`exitPrice`/`exitTimestamp` set, is `open` or `failed`, and satisfies
the invariant; (ii) `logTrade` of such a trade and (iii) `closeTrade`
preserve the invariant across the whole journal; (iv) when `closeTrade`
finds its id it produces an entry that is `closed` with all three fields
set together. -/
theorem trade_status_iff_exit_fields :
    (∀ (tradeId : String) (tk : TokenCandidate) (settings : Settings)
        (now : Nat) (success : Bool) (response : Option String),
      tradeConsistent (mkBuyTrade tradeId tk settings now success response) ∧
      (mkBuyTrade tradeId tk settings now success response).pnl = none ∧
      (mkBuyTrade tradeId tk settings now success response).exitPrice = none ∧
      (mkBuyTrade tradeId tk settings now success response).exitTimestamp = none ∧
      ((mkBuyTrade tradeId tk settings now success response).status = .open ∨
       (mkBuyTrade tradeId tk settings now success response).status = .failed)) ∧
    (∀ (mem : AgentMemory) (tr : TradeEntry), tradeConsistent tr →
      (∀ t ∈ mem.trades, tradeConsistent t) →
      ∀ t ∈ (logTrade mem tr).trades, tradeConsistent t) ∧
    (∀ (mem : AgentMemory) (tid ep pnl : String) (now : Nat),
      (∀ t ∈ mem.trades, tradeConsistent t) →
      ∀ t ∈ (closeTrade mem tid ep pnl now).trades, tradeConsistent t) ∧
    (∀ (mem : AgentMemory) (tid ep pnl : String) (now : Nat),
      (mem.trades.find? (fun t => t.id == tid)).isSome = true →
      ∃ t ∈ (closeTrade mem tid ep pnl now).trades,
        t.id = tid ∧ t.status = TradeStatus.closed ∧
        t.pnl.isSome = true ∧ t.exitPrice.isSome = true ∧
        t.exitTimestamp.isSome = true) := by
  refine ⟨?_, ?_, ?_, ?_⟩
  · intro tradeId tk settings now success response
    cases success <;> simp [mkBuyTrade, tradeConsistent]
  · intro mem tr htr hmem t ht
    simp only [logTrade, List.mem_append, List.mem_singleton] at ht
    rcases ht with h | h
    · exact hmem t h
    · exact h ▸ htr
  · intro mem tid ep pnl now hmem t ht
    unfold closeTrade at ht
    rcases hfind : mem.trades.find? (fun t => t.id == tid) with _ | t0
    · rw [hfind] at ht; exact hmem t ht
    · rw [hfind] at ht
      exact updateFirst_consistent mem.trades _ ep pnl now hmem t ht
  · intro mem tid ep pnl now h
    have := updateFirst_close_found mem.trades tid ep pnl now h
    obtain ⟨t0, ht0⟩ := Option.isSome_iff_exists.mp h
    unfold closeTrade
    rw [ht0]
    simpa using this

/-- Witness for `trade_status_iff_exit_fields` on the concrete one-trade
journal: the freshly logged buy is consistent, and closing it yields the
closed entry with all exit fields set. -/
theorem trade_status_iff_exit_fields_witness :
    tradeConsistent buyTradeEx ∧
    (∀ t ∈ closedMemEx.trades, tradeConsistent t) ∧
    (∃ t ∈ closedMemEx.trades,
      t.id = "t1" ∧ t.status = TradeStatus.closed ∧
      t.pnl.isSome = true ∧ t.exitPrice.isSome = true ∧
      t.exitTimestamp.isSome = true) :=
  ⟨(trade_status_iff_exit_fields.1 "t1" pepe2Candidate settingsEx 100 true
      (some "ok")).1,
   trade_status_iff_exit_fields.2.2.1 memWithOpenTrade "t1" "2" "50" 200
     (fun t ht => by
        have := (trade_status_iff_exit_fields.1 "t1" pepe2Candidate settingsEx
          100 true (some "ok")).1
        revert ht
        simp only [memWithOpenTrade, logTrade, exampleMemory, List.mem_append,
          List.mem_singleton]
        rintro (h | rfl)
        · simp at h
        · exact this),
   trade_status_iff_exit_fields.2.2.2 memWithOpenTrade "t1" "2" "50" 200
     (by decide)⟩

/-- The code-unit order on character lists is total. -/
theorem leCharsB_total (a : List Char) :
    ∀ b, (leCharsB a b || leCharsB b a) = true := by
  induction a with
  | nil => intro b; cases b <;> simp [leCharsB]
  | cons x xs ih =>
      intro b
      cases b with
      | nil => simp [leCharsB]
      | cons y ys =>
          by_cases h : x = y
          · subst h; simpa [leCharsB] using ih ys
          · have h' : ¬ y = x := fun e => h e.symm
            simp only [leCharsB, if_neg h, if_neg h', Bool.or_eq_true,
              decide_eq_true_eq]
            rcases lt_trichotomy x y with h1 | h1 | h1
            · exact Or.inl h1
            · exact absurd h1 h
            · exact Or.inr h1

/-- The code-unit order on character lists is transitive. -/
theorem leCharsB_trans (a : List Char) :
    ∀ b c, leCharsB a b = true → leCharsB b c = true → leCharsB a c = true := by
  induction a with
  | nil => intro b c _ _; cases c <;> simp [leCharsB] <;> cases b <;>
      simp_all [leCharsB]
  | cons x xs ih =>
      intro b c h1 h2
      cases b with
      | nil => simp [leCharsB] at h1
      | cons y ys =>
          cases c with
          | nil => simp [leCharsB] at h2
          | cons z zs =>
              by_cases hxy : x = y
              · subst hxy
                by_cases hyz : x = z
                · subst hyz
                  simp only [leCharsB, if_pos rfl] at h1 h2 ⊢
                  exact ih ys zs h1 h2
                · simp only [leCharsB, if_pos rfl] at h1
                  simp only [leCharsB, if_neg hyz] at h2 ⊢
                  exact h2
              · by_cases hyz : y = z
                · subst hyz
                  simp only [leCharsB, if_neg hxy] at h1 ⊢
                  exact h1
                · simp only [leCharsB, if_neg hxy] at h1
                  simp only [leCharsB, if_neg hyz] at h2
                  have hlt : x < z :=
                    lt_trans (decide_eq_true_eq.mp h1) (decide_eq_true_eq.mp h2)
                  simp only [leCharsB, if_neg (ne_of_lt hlt), decide_eq_true_eq]
                  exact hlt

/-- The code-unit order on character lists is antisymmetric. -/
theorem leCharsB_antisymm (a : List Char) :
    ∀ b, leCharsB a b = true → leCharsB b a = true → a = b := by
  induction a with
  | nil => intro b _ h2; cases b with
      | nil => rfl
      | cons y ys => simp [leCharsB] at h2
  | cons x xs ih =>
      intro b h1 h2
      cases b with
      | nil => simp [leCharsB] at h1
      | cons y ys =>
          by_cases hxy : x = y
          · subst hxy
            simp only [leCharsB, if_pos rfl] at h1 h2
            rw [ih ys h1 h2]
          · have h' : ¬ y = x := fun e => hxy e.symm
            simp only [leCharsB, if_neg hxy, decide_eq_true_eq] at h1
            simp only [leCharsB, if_neg h', decide_eq_true_eq] at h2
            exact absurd h1 (asymm h2)

/-- Two key-sorted association lists that are permutations of each other
and have pairwise-distinct keys are equal. -/
theorem sorted_perm_nodup_eq (l1 : List (String × String)) :
    ∀ l2 : List (String × String),
      l1.Pairwise (fun a b => keyLe a b = true) →
      l2.Pairwise (fun a b => keyLe a b = true) →
      l1.Perm l2 → (l1.map Prod.fst).Nodup → l1 = l2 := by
  induction l1 with
  | nil =>
      intro l2 _ _ hperm _
      exact (hperm.symm.eq_nil).symm ▸ rfl
  | cons x xs ih =>
      intro l2 hs1 hs2 hperm hnd
      cases l2 with
      | nil => exact absurd hperm.eq_nil (by simp)
      | cons y ys =>
          by_cases hxy : x = y
          · subst hxy
            have htail := ih ys (List.Pairwise.of_cons hs1)
              (List.Pairwise.of_cons hs2) hperm.cons_inv
              ((List.nodup_cons.mp hnd).2)
            rw [htail]
          · have hx2 : x ∈ y :: ys := hperm.mem_iff.mp (List.mem_cons_self x xs)
            rcases List.mem_cons.mp hx2 with h | hxys
            · exact absurd h hxy
            · have hy1 : y ∈ x :: xs :=
                hperm.mem_iff.mpr (List.mem_cons_self y ys)
              rcases List.mem_cons.mp hy1 with h | hyxs
              · exact absurd h.symm hxy
              · have hku : keyLe x y = true :=
                  (List.pairwise_cons.mp hs1).1 y hyxs
                have hkv : keyLe y x = true :=
                  (List.pairwise_cons.mp hs2).1 x hxys
                have hkeys : x.1 = y.1 := by
                  have hdata := leCharsB_antisymm _ _ hku hkv
                  exact String.ext hdata
                have hmemkey : y.1 ∈ xs.map Prod.fst :=
                  List.mem_map_of_mem Prod.fst hyxs
                exact absurd (hkeys ▸ hmemkey) (List.nodup_cons.mp hnd).1

/-- `keyLe`-mergeSort is invariant under permutation of a distinct-key
association list. -/
theorem mergeSort_keyLe_eq_of_perm (p q : List (String × String))
    (hperm : p.Perm q) (hnd : (p.map Prod.fst).Nodup) :
    p.mergeSort keyLe = q.mergeSort keyLe := by
  have htrans : ∀ a b c : String × String,
      keyLe a b = true → keyLe b c = true → keyLe a c = true :=
    fun a b c h1 h2 => leCharsB_trans _ _ _ h1 h2
  have htotal : ∀ a b : String × String, (keyLe a b || keyLe b a) = true :=
    fun a b => leCharsB_total _ _
  have hs1 := List.sorted_mergeSort htrans htotal p
  have hs2 := List.sorted_mergeSort htrans htotal q
  have hchain : (p.mergeSort keyLe).Perm (q.mergeSort keyLe) :=
    ((List.mergeSort_perm p keyLe).trans hperm).trans
      (List.mergeSort_perm q keyLe).symm
  have hnd' : ((p.mergeSort keyLe).map Prod.fst).Nodup :=
    (((List.mergeSort_perm p keyLe).map Prod.fst).nodup_iff).mpr hnd
  exact sorted_perm_nodup_eq _ _ hs1 hs2 hchain hnd'

set_option maxRecDepth 4000 in
/-- C10 counterexample: the same action type with the same normalized
parameters produces *different* request ids at timestamps 1000 and 1001 —
`generateRequestId` embeds `Date.now()` in the id and so is not a
deterministic function of type + parameters. -/
theorem requestId_embeds_timestamp :
    generateRequestId "trade" [("token", "PEPE"), ("amount", "5")] 1000 ≠
      generateRequestId "trade" [("token", "PEPE"), ("amount", "5")] 1001 := by
  decide

/-- C10 amended: at a fixed call time the id is deterministic in the action
type and the normalized parameters — permuting the parameter record (with
its necessarily distinct keys) leaves the id unchanged, since the hash is
taken over the key-sorted serialization; only the embedded millisecond
timestamp varies between identical resubmissions. -/
theorem requestId_deterministic_at_fixed_time (t : String)
    (p q : List (String × String)) (now : Nat)
    (hperm : p.Perm q) (hnd : (p.map Prod.fst).Nodup) :
    generateRequestId t p now = generateRequestId t q now := by
  unfold generateRequestId jsonStringifySorted
  rw [mergeSort_keyLe_eq_of_perm p q hperm hnd]

/-- Witness for `requestId_deterministic_at_fixed_time`: the two-key
record in its two orders. -/
theorem requestId_deterministic_at_fixed_time_witness :
    generateRequestId "trade" [("token", "PEPE"), ("amount", "5")] 1000 =
      generateRequestId "trade" [("amount", "5"), ("token", "PEPE")] 1000 :=
  requestId_deterministic_at_fixed_time "trade"
    [("token", "PEPE"), ("amount", "5")] [("amount", "5"), ("token", "PEPE")]
    1000 (List.Perm.swap ("amount", "5") ("token", "PEPE") [])
    (by decide)

end Aibingwa
